import Mathlib

/-!
Verification of the courier-normalization and tracking-client logic of the
parcel delivery tracker (`src/tracker.py`).

The Python code is shallowly embedded as executable Lean definitions:

* Strings are Lean `String`s, manipulated through their `List Char` data so
  that every definition evaluates inside the kernel.  Python `str.lower`,
  `str.strip`, string slicing, `startswith` and string comparison are
  re-implemented character-by-character (ASCII semantics, which covers the
  courier identifiers the program works with).
* `difflib.get_close_matches` (the only library routine with real logic) is
  embedded following the CPython implementation of `SequenceMatcher`
  (`real_quick_ratio`, `quick_ratio`, `ratio` via `find_longest_match` and
  the matching-blocks recursion, including the autojunk "popular element"
  rule).  Ratios are kept as exact fractions `(numerator, denominator)`
  and compared by cross multiplication; CPython compares IEEE doubles, which
  agrees with the exact comparison away from ties at the cutoff.
* Python `set`s of strings are modelled as lists; only membership, iteration
  and `sorted(set(...))` are used by the code.
* The JSON payloads of `process_tracking_request` are modelled by the
  inductive type `JVal`.  Python's `dict.get` is totalized: on a non-dict
  receiver the embedding returns the default where CPython would raise
  `AttributeError`; the theorems about error payloads therefore carry
  shape hypotheses keeping them on the domain where CPython does not crash.
* The network is modelled by an `ApiBehavior` record holding the responses
  the three endpoints would produce, since `process_tracking_request` only
  observes those values.
-/

/-! ## Python string primitives (ASCII semantics) -/

/-- Python `str.lower` restricted to ASCII: the twenty-six uppercase letters
map to their lowercase forms, every other character is unchanged. -/
def pyToLower (c : Char) : Char :=
  match c with
  | 'A' => 'a' | 'B' => 'b' | 'C' => 'c' | 'D' => 'd' | 'E' => 'e'
  | 'F' => 'f' | 'G' => 'g' | 'H' => 'h' | 'I' => 'i' | 'J' => 'j'
  | 'K' => 'k' | 'L' => 'l' | 'M' => 'm' | 'N' => 'n' | 'O' => 'o'
  | 'P' => 'p' | 'Q' => 'q' | 'R' => 'r' | 'S' => 's' | 'T' => 't'
  | 'U' => 'u' | 'V' => 'v' | 'W' => 'w' | 'X' => 'x' | 'Y' => 'y'
  | 'Z' => 'z'
  | c => c

/-- Python `str.strip` whitespace (the ASCII whitespace characters). -/
def pyIsSpace (c : Char) : Bool :=
  c = ' ' || c = '\t' || c = '\n' || c = '\x0d' || c = '\x0b' || c = '\x0c'

/-- Strip characters satisfying `p` from both ends of a character list. -/
def stripList (p : Char → Bool) (l : List Char) : List Char :=
  ((l.dropWhile p).reverse.dropWhile p).reverse

/-- Python `s.lower()`. -/
def pyLower (s : String) : String := ⟨s.data.map pyToLower⟩

/-- Python `s.strip()`. -/
def pyStrip (s : String) : String := ⟨stripList pyIsSpace s.data⟩

/-- Python `s[:n]` on strings. -/
def pyTake (s : String) (n : Nat) : String := ⟨s.data.take n⟩

/-- Python `big.startswith(small)`. -/
def pyStartsWith (big small : String) : Bool := small.data.isPrefixOf big.data

/-- Python string comparison (lexicographic on code points), as a Boolean
`≤` on the underlying character lists. -/
def charListLe : List Char → List Char → Bool
  | [], _ => true
  | _ :: _, [] => false
  | a :: as, b :: bs =>
    if a.toNat < b.toNat then true
    else if b.toNat < a.toNat then false
    else charListLe as bs

/-- Python `a <= b` on strings. -/
def pyStringLe (a b : String) : Prop := charListLe a.data b.data = true

instance : DecidableRel pyStringLe := fun _ _ => inferInstanceAs (Decidable (_ = true))

theorem charListLe_total : ∀ xs ys, charListLe xs ys = true ∨ charListLe ys xs = true := by
  intro xs
  induction xs with
  | nil => intro ys; left; rfl
  | cons a as ih =>
    intro ys
    cases ys with
    | nil => right; rfl
    | cons b bs =>
      by_cases hab : a.toNat < b.toNat
      · left; simp [charListLe, hab]
      · by_cases hba : b.toNat < a.toNat
        · right; simp [charListLe, hba]
        · rcases ih bs with h | h
          · left; simp [charListLe, hab, hba, h]
          · right; simp [charListLe, hab, hba, h]

theorem charListLe_trans :
    ∀ xs ys zs, charListLe xs ys = true → charListLe ys zs = true →
      charListLe xs zs = true := by
  intro xs
  induction xs with
  | nil => intro ys zs _ _; rfl
  | cons a as ih =>
    intro ys zs h1 h2
    cases ys with
    | nil => simp [charListLe] at h1
    | cons b bs =>
      cases zs with
      | nil => simp [charListLe] at h2
      | cons c cs =>
        simp only [charListLe] at h1 h2 ⊢
        by_cases hab : a.toNat < b.toNat
        · by_cases hbc : b.toNat < c.toNat
          · have : a.toNat < c.toNat := Nat.lt_trans hab hbc
            simp [this]
          · by_cases hcb : c.toNat < b.toNat
            · simp [hbc, hcb] at h2
            · have hbceq : b.toNat = c.toNat := Nat.le_antisymm (Nat.le_of_not_lt hcb) (Nat.le_of_not_lt hbc)
              have : a.toNat < c.toNat := hbceq ▸ hab
              simp [this]
        · by_cases hba : b.toNat < a.toNat
          · simp [hab, hba] at h1
          · have habeq : a.toNat = b.toNat := Nat.le_antisymm (Nat.le_of_not_lt hba) (Nat.le_of_not_lt hab)
            by_cases hbc : b.toNat < c.toNat
            · have : a.toNat < c.toNat := habeq ▸ hbc
              simp [this]
            · by_cases hcb : c.toNat < b.toNat
              · simp [hbc, hcb] at h2
              · have hbceq : b.toNat = c.toNat := Nat.le_antisymm (Nat.le_of_not_lt hcb) (Nat.le_of_not_lt hbc)
                have hac : ¬ a.toNat < c.toNat := by omega
                have hca : ¬ c.toNat < a.toNat := by omega
                simp only [if_neg hab, if_neg hba] at h1
                simp only [if_neg hbc, if_neg hcb] at h2
                simp only [if_neg hac, if_neg hca]
                exact ih bs cs h1 h2

instance : IsTotal String pyStringLe := ⟨fun a b => charListLe_total a.data b.data⟩

instance : IsTrans String pyStringLe :=
  ⟨fun _ _ _ h1 h2 => charListLe_trans _ _ _ h1 h2⟩

/-- Python `sorted(set(l))` for a list of strings: the distinct elements in
ascending code-point order. -/
def pySortedSet (l : List String) : List String :=
  List.insertionSort pyStringLe l.dedup

/-! ## `canonicalize_courier_input` and the alias table (`src/tracker.py` 15-29, 91-95) -/

/-- Characters the canonical form keeps unchanged: the regex class `[a-z0-9]`. -/
def isLowerAlnumChar (c : Char) : Bool :=
  ('a'.toNat ≤ c.toNat && c.toNat ≤ 'z'.toNat) ||
  ('0'.toNat ≤ c.toNat && c.toNat ≤ '9'.toNat)

/-- Replace every maximal run of characters satisfying `p` by the single
character `r`; the Boolean argument records whether the previous character
belonged to such a run.  `re.sub(pattern+, r, s)` for a character class. -/
def collapseRunsAux (p : Char → Bool) (r : Char) : Bool → List Char → List Char
  | _, [] => []
  | inRun, c :: cs =>
    if p c then
      if inRun then collapseRunsAux p r true cs
      else r :: collapseRunsAux p r true cs
    else c :: collapseRunsAux p r false cs

/-- `canonicalize_courier_input` (`src/tracker.py` 91-95): trim and lowercase,
replace runs of non-`[a-z0-9]` characters by `-` (the first `re.sub` already
collapses runs, the second collapses `-` runs again as in the source), then
strip leading and trailing hyphens. -/
def canonicalize_courier_input (raw_value : String) : String :=
  let lowered := (pyLower (pyStrip raw_value)).data
  let subbed := collapseRunsAux (fun c => ! isLowerAlnumChar c) '-' false lowered
  let collapsed := collapseRunsAux (fun c => c = '-') '-' false subbed
  ⟨stripList (fun c => c = '-') collapsed⟩

/-- `COURIER_ALIASES` (`src/tracker.py` 15-29), as an association list in
source order. -/
def COURIER_ALIASES : List (String × String) :=
  [("cainiao", "cainiao"),
   ("cainiao-global", "cainiao"),
   ("cainiaoglobal", "cainiao"),
   ("imile", "imile"),
   ("imili", "imile"),
   ("imilie", "imile"),
   ("i-mile", "imile"),
   ("i mile", "imile"),
   ("australia-post", "australia-post"),
   ("australian-post", "australia-post"),
   ("auspost", "australia-post"),
   ("australia post", "australia-post"),
   ("australian post", "australia-post")]

/-- The inline allowlist `{"cainiao", "imile", "australia-post"}` used at
`src/tracker.py` 109, 116 and 128. -/
def ALWAYS_TRUSTED : List String := ["cainiao", "imile", "australia-post"]

/-- Python `dict` lookup on an association list (keys are unique in
`COURIER_ALIASES`, so first-match lookup is the dict semantics). -/
def lookupStr (k : String) : List (String × String) → Option String
  | [] => none
  | (k2, v) :: rest => if k = k2 then some v else lookupStr k rest

/-! ## `difflib.get_close_matches` (CPython `difflib.py`)

Ratios `2*M/T` are represented as exact fractions `(2*M, T)` and compared by
cross multiplication; denominators are always positive. -/

/-- `_calculate_ratio(matches, length)`: `2*matches/length`, and `1.0` when
`length == 0`. -/
def calcRatioPair (numMatched total : Nat) : Nat × Nat :=
  if total = 0 then (1, 1) else (2 * numMatched, total)

/-- Fraction comparison `s >= c` by cross multiplication. -/
def scoreGe (s c : Nat × Nat) : Bool := c.1 * s.2 ≤ s.1 * c.2

/-- Fraction comparison `s < c` by cross multiplication. -/
def scoreLt (s c : Nat × Nat) : Bool := s.1 * c.2 < c.1 * s.2

/-- Fraction equality by cross multiplication. -/
def scoreEq (s c : Nat × Nat) : Bool := s.1 * c.2 = c.1 * s.2

/-- Ascending positions of `c` in `b`: the values of `b2j[c]` built by
`SequenceMatcher.__chain_b`. -/
def charPositions (b : List Char) (c : Char) : List Nat :=
  (List.range b.length).filter (fun j => b[j]? = some c)

/-- The autojunk rule of `__chain_b`: when `len(b) >= 200`, elements occurring
more than `len(b) // 100 + 1` times are "popular" and removed from `b2j`. -/
def b2j (b : List Char) (c : Char) : List Nat :=
  if 200 ≤ b.length && b.length / 100 + 1 < b.count c then []
  else charPositions b c

/-- Inner loop of `find_longest_match` over the positions `j` of `a[i]` in
`b`: skips `j < blo` (`continue`), stops at `j >= bhi` (`break`), extends the
diagonal length table and tracks the best match.  `j2lenOld` is the table of
the previous row, `newj2len` the one being built. -/
def flmRow (j2lenOld : Nat → Nat) (i blo bhi : Nat) :
    List Nat → (Nat → Nat) → Nat × Nat × Nat → ((Nat → Nat) × (Nat × Nat × Nat))
  | [], newj2len, best => (newj2len, best)
  | j :: js, newj2len, best =>
    if j < blo then flmRow j2lenOld i blo bhi js newj2len best
    else if bhi ≤ j then (newj2len, best)
    else
      let k := (if j = 0 then 0 else j2lenOld (j - 1)) + 1
      let newTable := fun j2 => if j2 = j then k else newj2len j2
      let best2 := if best.2.2 < k then (i + 1 - k, j + 1 - k, k) else best
      flmRow j2lenOld i blo bhi js newTable best2

/-- Outer loop of `find_longest_match` over `i in range(alo, ahi)`. -/
def flmMain (a b : List Char) (blo bhi : Nat) :
    List Nat → (Nat → Nat) → Nat × Nat × Nat → Nat × Nat × Nat
  | [], _, best => best
  | i :: rest, j2len, best =>
    let row := flmRow j2len i blo bhi (b2j b (a.getD i ' ')) (fun _ => 0) best
    flmMain a b blo bhi rest row.1 row.2

/-- The first post-loop extension of `find_longest_match`: grow the match
backwards over equal characters (the junk set is empty, so the `isbjunk`
guards of the source are vacuous).  Recursion is on an explicit bound that
the caller instantiates large enough (`besti` steps at most). -/
def extendHead (a b : List Char) (alo blo : Nat) : Nat → Nat × Nat × Nat → Nat × Nat × Nat
  | 0, best => best
  | fuel + 1, (besti, bestj, bestsize) =>
    if alo < besti && blo < bestj &&
       ((a[besti - 1]?).isSome && decide (a[besti - 1]? = b[bestj - 1]?)) then
      extendHead a b alo blo fuel (besti - 1, bestj - 1, bestsize + 1)
    else (besti, bestj, bestsize)

/-- The second post-loop extension of `find_longest_match`: grow the match
forwards over equal characters. -/
def extendTail (a b : List Char) (ahi bhi : Nat) : Nat → Nat × Nat × Nat → Nat × Nat × Nat
  | 0, best => best
  | fuel + 1, (besti, bestj, bestsize) =>
    if besti + bestsize < ahi && bestj + bestsize < bhi &&
       ((a[besti + bestsize]?).isSome &&
        decide (a[besti + bestsize]? = b[bestj + bestsize]?)) then
      extendTail a b ahi bhi fuel (besti, bestj, bestsize + 1)
    else (besti, bestj, bestsize)

/-- `SequenceMatcher.find_longest_match(alo, ahi, blo, bhi)` with `a`, `b`
the two sequences and an empty junk set. -/
def find_longest_match (a b : List Char) (alo ahi blo bhi : Nat) : Nat × Nat × Nat :=
  let best1 := flmMain a b blo bhi (List.range' alo (ahi - alo)) (fun _ => 0) (alo, blo, 0)
  let best2 := extendHead a b alo blo best1.1 best1
  extendTail a b ahi bhi ahi best2

/-- Total size of the matching blocks found by `get_matching_blocks`'s
divide-and-conquer around each longest match (the queue traversal of the
source visits exactly these subranges; summing sizes is order independent,
and the final merge of adjacent blocks preserves the sum).  The first
argument bounds the recursion depth; every recursive call strictly shrinks
`ahi - alo`, so `a.length + 1` steps always suffice. -/
def matchingSum (a b : List Char) : Nat → Nat → Nat → Nat → Nat → Nat
  | 0, _, _, _, _ => 0
  | fuel + 1, alo, ahi, blo, bhi =>
    let m := find_longest_match a b alo ahi blo bhi
    if m.2.2 = 0 then 0
    else
      (if alo < m.1 && blo < m.2.1 then matchingSum a b fuel alo m.1 blo m.2.1 else 0) +
      m.2.2 +
      (if m.1 + m.2.2 < ahi && m.2.1 + m.2.2 < bhi then
        matchingSum a b fuel (m.1 + m.2.2) ahi (m.2.1 + m.2.2) bhi else 0)

/-- `SequenceMatcher.ratio()` as an exact fraction. -/
def ratioPair (a b : List Char) : Nat × Nat :=
  calcRatioPair (matchingSum a b (a.length + 1) 0 a.length 0 b.length) (a.length + b.length)

/-- Loop body of `quick_ratio`: `avail` tracks how many of each character of
`b` are still unclaimed (`none` means not yet looked up in `fullbcount`). -/
def quickMatches (bcount : Char → Nat) : List Char → (Char → Option Int) → Nat
  | [], _ => 0
  | c :: rest, avail =>
    let numb : Int := match avail c with | some v => v | none => (bcount c : Int)
    let avail2 : Char → Option Int := fun d => if d = c then some (numb - 1) else avail d
    (if 0 < numb then 1 else 0) + quickMatches bcount rest avail2

/-- `SequenceMatcher.quick_ratio()` as an exact fraction. -/
def quickRatioPair (a b : List Char) : Nat × Nat :=
  calcRatioPair (quickMatches (fun c => b.count c) a (fun _ => none)) (a.length + b.length)

/-- `SequenceMatcher.real_quick_ratio()` as an exact fraction. -/
def realQuickRatioPair (a b : List Char) : Nat × Nat :=
  calcRatioPair (min a.length b.length) (a.length + b.length)

/-- The filter of `get_close_matches`: the three ratio tests against the
cutoff, evaluated lazily exactly as the chained `and` of the source; returns
the final `ratio()` when all three pass. -/
def gcmScore (a b : List Char) (cutoff : Nat × Nat) : Option (Nat × Nat) :=
  if scoreGe (realQuickRatioPair a b) cutoff then
    if scoreGe (quickRatioPair a b) cutoff then
      if scoreGe (ratioPair a b) cutoff then some (ratioPair a b) else none
    else none
  else none

/-- Descending order on `(score, word)` pairs used by `heapq.nlargest`
(CPython compares the `(float, str)` tuples lexicographically). -/
def gcmPairDesc (p q : (Nat × Nat) × String) : Prop :=
  (scoreLt q.1 p.1 || (scoreEq q.1 p.1 && charListLe q.2.data p.2.data)) = true

instance : DecidableRel gcmPairDesc := fun _ _ => inferInstanceAs (Decidable (_ = true))

/-- `difflib.get_close_matches(word, possibilities, n, cutoff)`:
score every possibility (`SequenceMatcher` with `seq2 = word`,
`seq1 = x`), take the `n` largest `(score, x)` pairs, return the words. -/
def get_close_matches (word : String) (possibilities : List String)
    (n : Nat) (cutoff : Nat × Nat) : List String :=
  let scored := possibilities.filterMap fun x =>
    (gcmScore x.data word.data cutoff).map fun r => (r, x)
  ((List.insertionSort gcmPairDesc scored).take n).map Prod.snd

/-! ## `normalize_courier_code` (`src/tracker.py` 98-133) -/

/-- The duplicated alias-acceptance block (`src/tracker.py` 105-110 and
112-117): look the key up in `COURIER_ALIASES`; on a hit return the mapped
alias when it is in the valid set, or else when it is always trusted; a hit
that is accepted by neither check falls through (`none`), exactly like the
source's straight-line `if` chain. -/
def aliasAccept (key : String) (valid_couriers : List String) : Option String :=
  match lookupStr key COURIER_ALIASES with
  | some mapped =>
    if mapped ∈ valid_couriers then some mapped
    else if mapped ∈ ALWAYS_TRUSTED then some mapped
    else none
  | none => none

/-- One iteration of the forced-suggestion loop (`src/tracker.py` 128-131):
append `common` when it is in the valid set, not already suggested, and
either starts with the first three characters of the canonical input or the
canonical input is an alias key. -/
def forceStep (valid_couriers : List String) (normalized_input : String)
    (acc : List String) (common : String) : List String :=
  if common ∈ valid_couriers ∧ common ∉ acc ∧
     (pyStartsWith common (pyTake normalized_input 3) = true ∨
      (lookupStr normalized_input COURIER_ALIASES).isSome = true)
  then acc ++ [common] else acc

/-- The whole forced-suggestion loop over `("cainiao", "imile",
"australia-post")`. -/
def forceLoop (valid_couriers : List String) (normalized_input : String)
    (suggestions : List String) : List String :=
  List.foldl (forceStep valid_couriers normalized_input) suggestions ALWAYS_TRUSTED

/-- `normalize_courier_code` (`src/tracker.py` 98-133).  `clean` of the
source is `pyLower (pyStrip raw_value)` and `normalized_input` is
`canonicalize_courier_input` of it; both are written out in full instead of
`let`-bound to keep the branch structure amenable to case analysis. -/
def normalize_courier_code (raw_value : String) (valid_couriers : List String) :
    Option String × List String :=
  if pyLower (pyStrip raw_value) = "" then (none, [])
  else
    match aliasAccept (pyLower (pyStrip raw_value)) valid_couriers with
    | some mapped => (some mapped, [])
    | none =>
      match aliasAccept (canonicalize_courier_input (pyLower (pyStrip raw_value))) valid_couriers with
      | some mapped => (some mapped, [])
      | none =>
        if canonicalize_courier_input (pyLower (pyStrip raw_value)) ∈ valid_couriers then
          (some (canonicalize_courier_input (pyLower (pyStrip raw_value))), [])
        else if pyLower (pyStrip raw_value) ∈ valid_couriers then
          (some (pyLower (pyStrip raw_value)), [])
        else
          (none,
            forceLoop valid_couriers
              (canonicalize_courier_input (pyLower (pyStrip raw_value)))
              (pySortedSet
                (get_close_matches
                  (canonicalize_courier_input (pyLower (pyStrip raw_value)))
                  valid_couriers 5 (55, 100))))

/-! ## JSON values and the tracking client (`src/tracker.py` 85-88, 136-200) -/

/-- JSON values as decoded by `json.loads` (numbers restricted to integers;
the error codes and payload fields the client inspects are integers and
strings). -/
inductive JVal where
  | jnull
  | jbool (b : Bool)
  | jnum (n : Int)
  | jstr (s : String)
  | jarr (xs : List JVal)
  | jobj (fields : List (String × JVal))

/-- Python truthiness of a JSON value. -/
def jTruthy : JVal → Bool
  | .jnull => false
  | .jbool b => b
  | .jnum n => decide (n ≠ 0)
  | .jstr s => decide (s ≠ "")
  | .jarr xs => ! xs.isEmpty
  | .jobj fs => ! fs.isEmpty

/-- Whether the value is a JSON object (`isinstance(v, dict)`). -/
def JVal.isObj : JVal → Bool
  | .jobj _ => true
  | _ => false

/-- First value bound to key `k` in an association list. -/
def jFieldLookup (k : String) : List (String × JVal) → Option JVal
  | [] => none
  | (k2, v) :: rest => if k2 = k then some v else jFieldLookup k rest

/-- Python `v.get(k)` for a dict `v`.  Totalized: a non-dict receiver yields
`none`, where CPython raises `AttributeError`; theorems whose scenario could
hit that case carry shape hypotheses instead. -/
def dictGet (v : JVal) (k : String) : Option JVal :=
  match v with
  | .jobj fields => jFieldLookup k fields
  | _ => none

/-- Python `v.get(k, d)` for a dict `v` (same totalization as `dictGet`). -/
def dictGetD (v : JVal) (k : String) (d : JVal) : JVal := (dictGet v k).getD d

/-- Python `v == n` between a JSON value and an `int` literal (`True`/`False`
compare as `1`/`0`; non-numbers compare unequal). -/
def jEqNum (v : JVal) (n : Int) : Bool :=
  match v with
  | .jnum m => decide (m = n)
  | .jbool b => decide ((if b then (1 : Int) else 0) = n)
  | _ => false

/-- Python `repr` of a JSON value, used by `str` on lists and dicts
(simplified: strings are single-quoted without escaping). -/
def pyRepr : JVal → String
  | .jnull => "None"
  | .jbool true => "True"
  | .jbool false => "False"
  | .jnum n => toString n
  | .jstr s => "\x27" ++ s ++ "\x27"
  | .jarr xs => "[" ++ String.intercalate ", " (xs.attach.map fun x => pyRepr x.1) ++ "]"
  | .jobj fs =>
    "\x7b" ++
      String.intercalate ", "
        (fs.attach.map fun f => "\x27" ++ f.1.1 ++ "\x27: " ++ pyRepr f.1.2) ++
    "\x7d"
decreasing_by
  · have h := List.sizeOf_lt_of_mem x.2
    simp_wf
    omega
  · have h1 := List.sizeOf_lt_of_mem f.2
    have h2 : sizeOf f.1.2 < sizeOf f.1 := by
      obtain ⟨a, b⟩ := f.1
      simp
    simp_wf
    omega

/-- Python `str` of a JSON value. -/
def pyStr : JVal → String
  | .jstr s => s
  | v => pyRepr v

/-- The list `result.get("data", {}).get("couriers", [])` iterated by
`fetch_valid_couriers` (a non-list value is modelled as the empty
iteration). -/
def couriersOf (result : JVal) : List JVal :=
  match dictGetD (dictGetD result "data" (.jobj [])) "couriers" (.jarr []) with
  | .jarr cs => cs
  | _ => []

/-- `fetch_valid_couriers` (`src/tracker.py` 85-88) applied to the decoded
body of the `/couriers` response: the set comprehension
`{str(courier.get("slug", "")).strip().lower() for courier in couriers if
courier.get("slug")}`, modelled as the list of its elements in iteration
order. -/
def fetch_valid_couriers (result : JVal) : List String :=
  (couriersOf result).filterMap fun courier =>
    match dictGet courier "slug" with
    | some slug => if jTruthy slug then some (pyLower (pyStrip (pyStr slug))) else none
    | none => none

/-- The remote behaviour visible to one `process_tracking_request` call: the
decoded `/couriers` response (or the raised error payload), the response of
`create_tracking` for given courier code and tracking number, and the
response of `fetch_tracking_by_id` for a given tracking id.  `Except.error
e` models `RuntimeError(e)` raised by `api_request`. -/
structure ApiBehavior where
  couriersResp : Except JVal JVal
  createResp : String → String → Except JVal JVal
  fetchByIdResp : JVal → Except JVal JVal

/-- The success record built by `process_tracking_request` (`"ok": True`):
`courier_code`, `tracking_number`, `tag` and `raw` of the returned dict. -/
structure TrackingSuccess where
  courier_code : JVal
  tracking_number : JVal
  tag : JVal
  raw : JVal

/-- The outcome dict of `process_tracking_request`: the `ok = False` dict
(with its fixed error message and the suggestion list) or the `ok = True`
record. -/
inductive TrackingOutcome where
  | invalid (suggestions : List String)
  | success (r : TrackingSuccess)

/-- `process_tracking_request` (`src/tracker.py` 156-200).  `Except.error`
models an uncaught `RuntimeError` propagating to the caller; the final
`raise` re-raises the caught error payload unchanged. -/
def process_tracking_request (api : ApiBehavior) (tracking_number courier_input : String) :
    Except JVal TrackingOutcome :=
  match api.couriersResp with
  | .error e => .error e
  | .ok couriersBody =>
    match normalize_courier_code courier_input (fetch_valid_couriers couriersBody) with
    | (courierOpt, suggestions) =>
      if courierOpt.getD "" = "" then .ok (.invalid suggestions)
      else
        let courier_code := courierOpt.getD ""
        match api.createResp courier_code tracking_number with
        | .ok result =>
          let data := dictGetD result "data" (.jobj [])
          let tracking := dictGetD data "tracking" data
          .ok (.success
            { courier_code := dictGetD tracking "slug" (.jstr courier_code)
              tracking_number := dictGetD tracking "tracking_number" (.jstr tracking_number)
              tag := dictGetD tracking "tag" (.jstr "N/A")
              raw := tracking })
        | .error details =>
          let meta := if details.isObj then dictGetD details "meta" (.jobj []) else .jobj []
          let data := if details.isObj then dictGetD details "data" (.jobj []) else .jobj []
          if jEqNum (dictGetD meta "code" .jnull) 4003 && jTruthy data then
            let tracking_id := dictGetD data "id" .jnull
            let detailed_tracking :=
              if jTruthy tracking_id then
                match api.fetchByIdResp tracking_id with
                | .ok lookup =>
                  let lookup_data := if lookup.isObj then dictGetD lookup "data" (.jobj []) else .jobj []
                  dictGetD lookup_data "tracking" lookup_data
                | .error _ => data
              else data
            .ok (.success
              { courier_code := dictGetD detailed_tracking "slug" (dictGetD data "slug" (.jstr courier_code))
                tracking_number :=
                  dictGetD detailed_tracking "tracking_number"
                    (dictGetD data "tracking_number" (.jstr tracking_number))
                tag := dictGetD detailed_tracking "tag" (dictGetD data "tag" (.jstr "Existing"))
                raw := detailed_tracking })
          else .error details

/-! ## Character-level facts about canonical forms -/

theorem mem_collapseRunsAux {p : Char → Bool} {r : Char} :
    ∀ (b : Bool) (l : List Char) (ch : Char), ch ∈ collapseRunsAux p r b l →
      ch = r ∨ (ch ∈ l ∧ p ch = false) := by
  intro b l
  induction l generalizing b with
  | nil => intro ch h; simp [collapseRunsAux] at h
  | cons c cs ih =>
    intro ch h
    simp only [collapseRunsAux] at h
    by_cases hp : p c
    · rw [if_pos hp] at h
      cases b with
      | true =>
        rw [if_pos rfl] at h
        rcases ih true ch h with h1 | ⟨h1, h2⟩
        · exact Or.inl h1
        · exact Or.inr ⟨List.mem_cons_of_mem _ h1, h2⟩
      | false =>
        rw [if_neg (by simp)] at h
        rcases List.mem_cons.mp h with h3 | h3
        · exact Or.inl h3
        · rcases ih true ch h3 with h1 | ⟨h1, h2⟩
          · exact Or.inl h1
          · exact Or.inr ⟨List.mem_cons_of_mem _ h1, h2⟩
    · rw [if_neg hp] at h
      rcases List.mem_cons.mp h with h3 | h3
      · subst h3
        exact Or.inr ⟨List.mem_cons_self _ _, by simpa using hp⟩
      · rcases ih false ch h3 with h1 | ⟨h1, h2⟩
        · exact Or.inl h1
        · exact Or.inr ⟨List.mem_cons_of_mem _ h1, h2⟩

theorem mem_dropWhile {p : Char → Bool} :
    ∀ (l : List Char) (ch : Char), ch ∈ l.dropWhile p → ch ∈ l := by
  intro l
  induction l with
  | nil => intro ch h; simp [List.dropWhile] at h
  | cons c cs ih =>
    intro ch h
    simp only [List.dropWhile] at h
    by_cases hp : p c
    · simp only [hp, if_true] at h
      exact List.mem_cons_of_mem _ (ih ch h)
    · simp only [hp, if_false] at h
      exact h

theorem mem_stripList {p : Char → Bool} {l : List Char} {ch : Char}
    (h : ch ∈ stripList p l) : ch ∈ l := by
  unfold stripList at h
  rw [List.mem_reverse] at h
  have h2 := mem_dropWhile _ _ h
  rw [List.mem_reverse] at h2
  exact mem_dropWhile _ _ h2

/-- Every character of a canonical form is a lowercase letter, a digit, or a
hyphen. -/
theorem canonicalize_chars (s : String) :
    ∀ ch ∈ (canonicalize_courier_input s).data,
      isLowerAlnumChar ch = true ∨ ch = '-' := by
  intro ch h
  unfold canonicalize_courier_input at h
  simp only at h
  have h1 := mem_stripList h
  rcases mem_collapseRunsAux _ _ _ h1 with h2 | ⟨h2, _⟩
  · exact Or.inr h2
  · rcases mem_collapseRunsAux _ _ _ h2 with h3 | ⟨_, h4⟩
    · exact Or.inr h3
    · left
      simpa using h4

theorem pyToLower_fixed {ch : Char}
    (h : isLowerAlnumChar ch = true ∨ ch = '-') : pyToLower ch = ch := by
  unfold pyToLower
  split
  all_goals first
    | rfl
    | (exfalso; revert h; decide)

theorem pyIsSpace_false {ch : Char}
    (h : isLowerAlnumChar ch = true ∨ ch = '-') : pyIsSpace ch = false := by
  cases hsp : pyIsSpace ch
  · rfl
  · exfalso
    simp only [pyIsSpace, Bool.or_eq_true, decide_eq_true_eq] at hsp
    rcases hsp with ((((h1 | h1) | h1) | h1) | h1) | h1 <;>
      (subst h1; revert h; decide)

theorem map_pyToLower_eq_self {l : List Char}
    (h : ∀ ch ∈ l, pyToLower ch = ch) : l.map pyToLower = l := by
  induction l with
  | nil => rfl
  | cons c cs ih =>
    simp only [List.map_cons, h c (List.mem_cons_self _ _)]
    rw [ih fun ch hm => h ch (List.mem_cons_of_mem _ hm)]

theorem dropWhile_eq_self {p : Char → Bool} {l : List Char}
    (h : ∀ ch ∈ l, p ch = false) : l.dropWhile p = l := by
  cases l with
  | nil => rfl
  | cons c cs =>
    simp [List.dropWhile, h c (List.mem_cons_self _ _)]

theorem stripList_eq_self {p : Char → Bool} {l : List Char}
    (h : ∀ ch ∈ l, p ch = false) : stripList p l = l := by
  unfold stripList
  rw [dropWhile_eq_self h]
  rw [dropWhile_eq_self fun ch hm => h ch (List.mem_reverse.mp hm)]
  exact List.reverse_reverse l

/-- A fixed point of canonicalization is also a fixed point of
`str.strip().lower()`, the `clean` of `normalize_courier_code`. -/
theorem clean_of_canonical_fixed {c : String}
    (hfix : canonicalize_courier_input c = c) : pyLower (pyStrip c) = c := by
  have hchars : ∀ ch ∈ c.data, isLowerAlnumChar ch = true ∨ ch = '-' := by
    intro ch h
    exact canonicalize_chars c ch (by rw [hfix]; exact h)
  have hstrip : pyStrip c = c := by
    apply String.ext
    exact stripList_eq_self fun ch hm => pyIsSpace_false (hchars ch hm)
  rw [hstrip]
  apply String.ext
  exact map_pyToLower_eq_self fun ch hm => pyToLower_fixed (hchars ch hm)

/-! ## Claim C2 -/

/-- Claim C2 counterexample: the three variants do NOT all canonicalize to
one form: `canonicalize_courier_input "I-Mile"` keeps the hyphen while
`canonicalize_courier_input "IMILE"` has none, so the claimed pairwise
equality fails. -/
theorem canonicalize_variants_differ :
    canonicalize_courier_input "I-Mile" ≠ canonicalize_courier_input "IMILE" := by
  decide

/-- Claim C2 amended: `"I-Mile"` and `"i mile"` canonicalize to the same
form `"i-mile"`, but `"IMILE"` canonicalizes to `"imile"`, a different
string; all three inputs still normalize to the courier `"imile"` because
each form is an alias key. -/
theorem canonicalize_variants_behavior :
    canonicalize_courier_input "I-Mile" = canonicalize_courier_input "i mile" ∧
    canonicalize_courier_input "I-Mile" = "i-mile" ∧
    canonicalize_courier_input "IMILE" = "imile" ∧
    normalize_courier_code "I-Mile" [] = (some "imile", []) ∧
    normalize_courier_code "i mile" [] = (some "imile", []) ∧
    normalize_courier_code "IMILE" [] = (some "imile", []) := by
  refine ⟨by decide, by decide, by decide, by decide, by decide, by decide⟩

/-! ## Claim C1 -/

/-- Claim C1 counterexample: `"auspost"` is a member of the valid set
`{"auspost"}` and is its own canonical form, yet normalizing its canonical
form yields `("australia-post", [])`, not `("auspost", [])` — the alias
table rewrites it, so normalization is not idempotent under canonicalization
as claimed. -/
theorem auspost_roundtrip_fails :
    normalize_courier_code (canonicalize_courier_input "auspost") ["auspost"] ≠
      (some "auspost", []) := by
  decide

/-- Claim C1 amended: for a valid set `V` and a member `c` that is non-empty,
a fixed point of canonicalization, and not remapped by the alias table (an
alias entry for key `c`, if any, maps back to `c`), normalizing the canonical
form of `c` returns `(c, [])`. -/
theorem normalize_canonical_fixed_point (valid : List String) (c : String)
    (hmem : c ∈ valid) (hne : c ≠ "")
    (hfix : canonicalize_courier_input c = c)
    (halias : (lookupStr c COURIER_ALIASES).getD c = c) :
    normalize_courier_code (canonicalize_courier_input c) valid = (some c, []) := by
  rw [hfix]
  have hclean : pyLower (pyStrip c) = c := clean_of_canonical_fixed hfix
  unfold normalize_courier_code
  rw [hclean, hfix, if_neg hne]
  cases hl : lookupStr c COURIER_ALIASES with
  | none =>
    simp only [aliasAccept, hl]
    rw [if_pos hmem]
  | some a =>
    have ha : a = c := by simpa [hl] using halias
    subst ha
    simp only [aliasAccept, hl, if_pos hmem]

/-- Claim C1 witness: the amended theorem applied to `c = "cainiao"`,
`V = {"cainiao"}`. -/
theorem normalize_canonical_fixed_point_witness :
    normalize_courier_code (canonicalize_courier_input "cainiao") ["cainiao"] =
      (some "cainiao", []) :=
  normalize_canonical_fixed_point ["cainiao"] "cainiao"
    (by decide) (by decide) (by decide) (by decide)

/-! ## Branch analysis of `normalize_courier_code` -/

theorem lookupStr_mem : ∀ (l : List (String × String)) (k v : String),
    lookupStr k l = some v → (k, v) ∈ l := by
  intro l
  induction l with
  | nil => intro k v h; simp [lookupStr] at h
  | cons p rest ih =>
    intro k v h
    obtain ⟨k2, v2⟩ := p
    simp only [lookupStr] at h
    split at h
    · rename_i heq
      subst heq
      simp only [Option.some.injEq] at h
      subst h
      exact List.mem_cons_self _ _
    · exact List.mem_cons_of_mem _ (ih k v h)

theorem aliasAccept_lookup {k : String} {valid : List String} {a : String}
    (h : aliasAccept k valid = some a) : lookupStr k COURIER_ALIASES = some a := by
  unfold aliasAccept at h
  split at h
  · rename_i m heq
    rw [heq]
    split at h
    · simpa using h
    · split at h
      · simpa using h
      · simp at h
  · simp at h

/-- Exhaustive description of the return points of `normalize_courier_code`:
the empty-input exit, the two alias exits, the two direct-membership exits,
and the suggestion branch. -/
theorem normalize_cases (raw : String) (valid : List String) :
    (pyLower (pyStrip raw) = "" ∧ normalize_courier_code raw valid = (none, [])) ∨
    (∃ a, aliasAccept (pyLower (pyStrip raw)) valid = some a ∧
      normalize_courier_code raw valid = (some a, [])) ∨
    (∃ a, aliasAccept (canonicalize_courier_input (pyLower (pyStrip raw))) valid = some a ∧
      normalize_courier_code raw valid = (some a, [])) ∨
    (canonicalize_courier_input (pyLower (pyStrip raw)) ∈ valid ∧
      normalize_courier_code raw valid =
        (some (canonicalize_courier_input (pyLower (pyStrip raw))), [])) ∨
    (pyLower (pyStrip raw) ∈ valid ∧
      normalize_courier_code raw valid = (some (pyLower (pyStrip raw)), [])) ∨
    (pyLower (pyStrip raw) ≠ "" ∧
      normalize_courier_code raw valid =
        (none,
          forceLoop valid (canonicalize_courier_input (pyLower (pyStrip raw)))
            (pySortedSet
              (get_close_matches (canonicalize_courier_input (pyLower (pyStrip raw)))
                valid 5 (55, 100))))) := by
  unfold normalize_courier_code
  split
  · rename_i hempty
    exact Or.inl ⟨hempty, rfl⟩
  · rename_i hne
    split
    · rename_i m heq
      exact Or.inr (Or.inl ⟨m, heq, rfl⟩)
    · rename_i heq1
      split
      · rename_i m heq
        exact Or.inr (Or.inr (Or.inl ⟨m, heq, rfl⟩))
      · rename_i heq2
        split
        · rename_i hmem
          exact Or.inr (Or.inr (Or.inr (Or.inl ⟨hmem, rfl⟩)))
        · rename_i hnmem
          split
          · rename_i hmem
            exact Or.inr (Or.inr (Or.inr (Or.inr (Or.inl ⟨hmem, rfl⟩))))
          · exact Or.inr (Or.inr (Or.inr (Or.inr (Or.inr ⟨hne, rfl⟩))))

/-! ## Claim C9 -/

/-- Claim C9: whenever `normalize_courier_code` returns a code, the
suggestion list is empty and the code is a value of the alias table or a
member of the valid set — the function never returns both a code and
suggestions and never invents a code. -/
theorem normalize_some_no_suggestions (raw : String) (valid : List String) (code : String)
    (h : (normalize_courier_code raw valid).1 = some code) :
    (normalize_courier_code raw valid).2 = [] ∧
    ((∃ k, (k, code) ∈ COURIER_ALIASES) ∨ code ∈ valid) := by
  rcases normalize_cases raw valid with
    ⟨_, heq⟩ | ⟨a, ha, heq⟩ | ⟨a, ha, heq⟩ | ⟨hmem, heq⟩ | ⟨hmem, heq⟩ | ⟨_, heq⟩
  · rw [heq] at h; simp at h
  · rw [heq] at h
    simp only [Option.some.injEq] at h
    subst h
    exact ⟨by rw [heq], Or.inl ⟨_, lookupStr_mem _ _ _ (aliasAccept_lookup ha)⟩⟩
  · rw [heq] at h
    simp only [Option.some.injEq] at h
    subst h
    exact ⟨by rw [heq], Or.inl ⟨_, lookupStr_mem _ _ _ (aliasAccept_lookup ha)⟩⟩
  · rw [heq] at h
    simp only [Option.some.injEq] at h
    subst h
    exact ⟨by rw [heq], Or.inr hmem⟩
  · rw [heq] at h
    simp only [Option.some.injEq] at h
    subst h
    exact ⟨by rw [heq], Or.inr hmem⟩
  · rw [heq] at h; simp at h

/-- Claim C9 witness: the theorem applied to input `"imilie"` and valid set
`{"imile"}`. -/
theorem normalize_some_no_suggestions_witness :
    (normalize_courier_code "imilie" ["imile"]).2 = [] ∧
    ((∃ k, (k, "imile") ∈ COURIER_ALIASES) ∨ "imile" ∈ ["imile"]) :=
  normalize_some_no_suggestions "imilie" ["imile"] "imile" (by decide)

/-! ## Claim C8 -/

/-- Claim C8: every alias key resolves to its mapped canonical code when that
code is the only valid courier, and also with an empty valid set whenever
the mapped code is always trusted (which holds for every alias value). -/
theorem alias_resolution_ok (a c : String) (hmem : (a, c) ∈ COURIER_ALIASES) :
    normalize_courier_code a [c] = (some c, []) ∧
    (c ∈ ALWAYS_TRUSTED → normalize_courier_code a [] = (some c, [])) := by
  fin_cases hmem <;> exact ⟨by decide, fun _ => by decide⟩

/-- Claim C8 witness: the theorem applied to the typo alias `"imili"`. -/
theorem alias_resolution_ok_witness :
    normalize_courier_code "imili" ["imile"] = (some "imile", []) ∧
    normalize_courier_code "imili" [] = (some "imile", []) :=
  ⟨(alias_resolution_ok "imili" "imile" (by decide)).1,
   (alias_resolution_ok "imili" "imile" (by decide)).2 (by decide)⟩

/-! ## Facts about the forced-suggestion loop and the sorted fuzzy matches -/

theorem mem_forceStep {valid : List String} {norm : String} {acc : List String}
    {x : String} (c : String) (h : x ∈ acc) : x ∈ forceStep valid norm acc c := by
  unfold forceStep
  split
  · exact List.mem_append_left _ h
  · exact h

theorem self_mem_forceStep {valid : List String} {norm : String} {acc : List String}
    {c : String} (hv : c ∈ valid)
    (hcond : pyStartsWith c (pyTake norm 3) = true ∨
      (lookupStr norm COURIER_ALIASES).isSome = true) :
    c ∈ forceStep valid norm acc c := by
  unfold forceStep
  split
  · exact List.mem_append_right _ (List.mem_singleton.mpr rfl)
  · rename_i hneg
    by_cases hacc : c ∈ acc
    · exact hacc
    · exact absurd ⟨hv, hacc, hcond⟩ hneg

theorem forceStep_decomp (valid : List String) (norm : String) (acc : List String)
    (c : String) :
    ∃ e, forceStep valid norm acc c = acc ++ e ∧ e.length ≤ 1 ∧
      (acc.Nodup → (forceStep valid norm acc c).Nodup) := by
  unfold forceStep
  split
  · rename_i hcond
    refine ⟨[c], rfl, by simp, fun hn => ?_⟩
    simp [List.nodup_append, hn, hcond.2.1]
  · exact ⟨[], by simp, by simp, fun hn => hn⟩

theorem forceLoop_decomp (valid : List String) (norm : String) (s : List String) :
    ∃ e, forceLoop valid norm s = s ++ e ∧ e.length ≤ 3 ∧
      (s.Nodup → (forceLoop valid norm s).Nodup) := by
  obtain ⟨e1, he1, hl1, hn1⟩ := forceStep_decomp valid norm s "cainiao"
  obtain ⟨e2, he2, hl2, hn2⟩ :=
    forceStep_decomp valid norm (forceStep valid norm s "cainiao") "imile"
  obtain ⟨e3, he3, hl3, hn3⟩ :=
    forceStep_decomp valid norm
      (forceStep valid norm (forceStep valid norm s "cainiao") "imile") "australia-post"
  have hloop : forceLoop valid norm s =
      forceStep valid norm
        (forceStep valid norm (forceStep valid norm s "cainiao") "imile")
        "australia-post" := by
    unfold forceLoop ALWAYS_TRUSTED
    simp only [List.foldl_cons, List.foldl_nil]
  refine ⟨e1 ++ e2 ++ e3, ?_, ?_, fun hn => ?_⟩
  · rw [hloop, he3, he2, he1]
    simp [List.append_assoc]
  · simp only [List.length_append]
    omega
  · rw [hloop]
    exact hn3 (hn2 (hn1 hn))

theorem pySortedSet_sorted (l : List String) : List.Sorted pyStringLe (pySortedSet l) :=
  List.sorted_insertionSort pyStringLe l.dedup

theorem pySortedSet_nodup (l : List String) : (pySortedSet l).Nodup :=
  (List.perm_insertionSort pyStringLe l.dedup).symm.nodup (List.nodup_dedup l)

theorem pySortedSet_length_le (l : List String) : (pySortedSet l).length ≤ l.length := by
  have h1 : (pySortedSet l).length = l.dedup.length :=
    (List.perm_insertionSort pyStringLe l.dedup).length_eq
  rw [h1]
  exact (List.dedup_sublist l).length_le

theorem gcm_length_le (w : String) (ps : List String) (n : Nat) (c : Nat × Nat) :
    (get_close_matches w ps n c).length ≤ n := by
  unfold get_close_matches
  simp only [List.length_map, List.length_take]
  exact Nat.min_le_left _ _

/-! ## Claim C4 -/

/-- Claim C4 counterexample: for input `"---"` (canonical form empty) and
valid set `{"cainiao", "imile", "australia-post"}` normalization fails and
returns the three forced couriers in loop order, which is NOT ascending
(`"australia-post"` sorts before `"cainiao"`), so the claimed sortedness of
the suggestion list fails. -/
theorem suggestions_not_sorted_after_forcing :
    (normalize_courier_code "---" ["cainiao", "imile", "australia-post"]).1 = none ∧
    (normalize_courier_code "---" ["cainiao", "imile", "australia-post"]).2 =
      ["cainiao", "imile", "australia-post"] ∧
    ¬ List.Sorted pyStringLe
      (normalize_courier_code "---" ["cainiao", "imile", "australia-post"]).2 := by
  refine ⟨by decide, by decide, by decide⟩

/-- Claim C4 amended: when normalization fails, the suggestion list has no
duplicates and decomposes as the fuzzy-match part (sorted ascending, at most
5 entries) followed by the forced always-trusted inclusions (at most 3), so
its length is at most 5 plus the number of forced inclusions; the overall
list need not be sorted because the forced entries are appended after
sorting. -/
theorem suggestions_nodup_and_bounded (raw : String) (valid : List String)
    (h : (normalize_courier_code raw valid).1 = none) :
    (normalize_courier_code raw valid).2.Nodup ∧
    ∃ fuzzy forced, (normalize_courier_code raw valid).2 = fuzzy ++ forced ∧
      List.Sorted pyStringLe fuzzy ∧ fuzzy.length ≤ 5 ∧ forced.length ≤ 3 := by
  rcases normalize_cases raw valid with
    ⟨_, heq⟩ | ⟨a, _, heq⟩ | ⟨a, _, heq⟩ | ⟨_, heq⟩ | ⟨_, heq⟩ | ⟨_, heq⟩
  · simp only [heq]
    exact ⟨List.nodup_nil, [], [], rfl, List.sorted_nil, by simp, by simp⟩
  · rw [heq] at h; simp at h
  · rw [heq] at h; simp at h
  · rw [heq] at h; simp at h
  · rw [heq] at h; simp at h
  · simp only [heq]
    obtain ⟨e, he, hl, hnd⟩ :=
      forceLoop_decomp valid (canonicalize_courier_input (pyLower (pyStrip raw)))
        (pySortedSet
          (get_close_matches (canonicalize_courier_input (pyLower (pyStrip raw)))
            valid 5 (55, 100)))
    refine ⟨hnd (pySortedSet_nodup _), _, e, he, pySortedSet_sorted _, ?_, hl⟩
    exact le_trans (pySortedSet_length_le _) (gcm_length_le _ _ _ _)

/-- Claim C4 witness: the deduplication half of the amended theorem at the
counterexample input. -/
theorem suggestions_nodup_and_bounded_witness :
    (normalize_courier_code "---" ["cainiao", "imile", "australia-post"]).2.Nodup :=
  (suggestions_nodup_and_bounded "---" ["cainiao", "imile", "australia-post"] (by decide)).1

/-! ## Claim C3 -/

/-- Claim C3 counterexample: with valid set `{}` and input `"cai"`,
normalization fails and `"cainiao"` (always trusted, and starting with the
canonical form's three-character prefix `"cai"`) is NOT suggested — the
forced inclusion requires the courier to be in the live valid set, contrary
to the claim's "regardless". -/
theorem forced_suggestion_needs_valid :
    (normalize_courier_code "cai" []).1 = none ∧
    pyStartsWith "cainiao"
      (pyTake (canonicalize_courier_input (pyLower (pyStrip "cai"))) 3) = true ∧
    "cainiao" ∉ (normalize_courier_code "cai" []).2 := by
  refine ⟨by decide, by decide, by decide⟩

/-- Claim C3 amended: when normalization fails on a non-empty cleaned input,
every always-trusted courier that IS in the live valid set and whose first
three characters match the canonical form's prefix (or for which the
canonical form is an alias key) appears in the returned suggestions. -/
theorem forced_suggestion_of_valid_trusted (raw common : String) (valid : List String)
    (hne : pyLower (pyStrip raw) ≠ "")
    (hnone : (normalize_courier_code raw valid).1 = none)
    (htr : common ∈ ALWAYS_TRUSTED) (hv : common ∈ valid)
    (hcond : pyStartsWith common
        (pyTake (canonicalize_courier_input (pyLower (pyStrip raw))) 3) = true ∨
      (lookupStr (canonicalize_courier_input (pyLower (pyStrip raw)))
        COURIER_ALIASES).isSome = true) :
    common ∈ (normalize_courier_code raw valid).2 := by
  rcases normalize_cases raw valid with
    ⟨hempty, _⟩ | ⟨a, _, heq⟩ | ⟨a, _, heq⟩ | ⟨_, heq⟩ | ⟨_, heq⟩ | ⟨_, heq⟩
  · exact absurd hempty hne
  · rw [heq] at hnone; simp at hnone
  · rw [heq] at hnone; simp at hnone
  · rw [heq] at hnone; simp at hnone
  · rw [heq] at hnone; simp at hnone
  · simp only [heq]
    have hloop : ∀ acc : List String,
        common ∈ forceLoop valid (canonicalize_courier_input (pyLower (pyStrip raw))) acc := by
      intro acc
      have hexp : forceLoop valid (canonicalize_courier_input (pyLower (pyStrip raw))) acc =
          forceStep valid (canonicalize_courier_input (pyLower (pyStrip raw)))
            (forceStep valid (canonicalize_courier_input (pyLower (pyStrip raw)))
              (forceStep valid (canonicalize_courier_input (pyLower (pyStrip raw)))
                acc "cainiao") "imile") "australia-post" := by
        unfold forceLoop ALWAYS_TRUSTED
        simp only [List.foldl_cons, List.foldl_nil]
      rw [hexp]
      simp only [ALWAYS_TRUSTED, List.mem_cons, List.not_mem_nil, or_false] at htr
      rcases htr with rfl | rfl | rfl
      · exact mem_forceStep _ (mem_forceStep _ (self_mem_forceStep hv hcond))
      · exact mem_forceStep _ (self_mem_forceStep hv hcond)
      · exact self_mem_forceStep hv hcond
    exact hloop _

/-- Claim C3 witness: the amended theorem at input `"cai"` and valid set
`{"cainiao"}`. -/
theorem forced_suggestion_of_valid_trusted_witness :
    "cainiao" ∈ (normalize_courier_code "cai" ["cainiao"]).2 :=
  forced_suggestion_of_valid_trusted "cai" "cainiao" ["cainiao"]
    (by decide) (by decide) (by decide) (by decide) (Or.inl (by decide))

/-! ## Claim C7 -/

theorem pyToLower_result (c : Char) :
    pyToLower c = c ∨ pyToLower c ∈
      ['a', 'b', 'c', 'd', 'e', 'f', 'g', 'h', 'i', 'j', 'k', 'l', 'm',
       'n', 'o', 'p', 'q', 'r', 's', 't', 'u', 'v', 'w', 'x', 'y', 'z'] := by
  unfold pyToLower
  split
  all_goals first
    | (left; rfl)
    | (right; decide)

theorem pyToLower_idem (c : Char) : pyToLower (pyToLower c) = pyToLower c := by
  rcases pyToLower_result c with h | h
  · rw [h]; exact h
  · simp only [List.mem_cons, List.not_mem_nil, or_false] at h
    rcases h with h|h|h|h|h|h|h|h|h|h|h|h|h|h|h|h|h|h|h|h|h|h|h|h|h|h <;>
      (rw [h]; decide)

theorem pyLower_idem (s : String) : pyLower (pyLower s) = pyLower s := by
  apply String.ext
  show List.map pyToLower (s.data.map pyToLower) = s.data.map pyToLower
  rw [List.map_map]
  exact List.map_congr_left fun a _ => pyToLower_idem a

theorem pyLower_eq_empty {s : String} (h : pyLower s = "") : s = "" := by
  apply String.ext
  have h2 : s.data.map pyToLower = [] := congrArg String.data h
  exact List.map_eq_nil_iff.mp h2

/-- Membership in the modelled `fetch_valid_couriers` result comes from a
courier record with a truthy slug, stripped and lowercased. -/
theorem mem_fetch_valid_couriers {resp : JVal} {m : String}
    (h : m ∈ fetch_valid_couriers resp) :
    ∃ courier ∈ couriersOf resp, ∃ slug, dictGet courier "slug" = some slug ∧
      jTruthy slug = true ∧ m = pyLower (pyStrip (pyStr slug)) := by
  unfold fetch_valid_couriers at h
  rw [List.mem_filterMap] at h
  obtain ⟨courier, hc, hm⟩ := h
  cases hg : dictGet courier "slug" with
  | none => rw [hg] at hm; simp at hm
  | some slug =>
    rw [hg] at hm
    dsimp only at hm
    by_cases ht : jTruthy slug = true
    · rw [if_pos ht] at hm
      simp only [Option.some.injEq] at hm
      exact ⟨courier, hc, slug, hg, ht, hm.symm⟩
    · rw [if_neg ht] at hm
      simp at hm

/-- Claim C7 counterexample: a well-formed response whose only slug is the
whitespace string `" "` passes the truthiness guard but strips to the empty
string, so the returned set contains a member that is NOT non-empty. -/
theorem whitespace_slug_gives_empty_member :
    "" ∈ fetch_valid_couriers
      (.jobj [("data", .jobj [("couriers", .jarr [.jobj [("slug", .jstr " ")]])])]) := by
  decide

/-- Whether a courier record's slug, if present and truthy, still has content
after stripping — the condition under which `fetch_valid_couriers` produces
a non-empty member from it. -/
def slugStripOk (courier : JVal) : Bool :=
  match dictGet courier "slug" with
  | some slug => ! jTruthy slug || ! (pyStrip (pyStr slug) == "")
  | none => true

/-- Claim C7 amended: every member of the fetched set is lowercase (fixed by
lowercasing); and every member is non-empty provided each truthy slug of the
response keeps at least one character after stripping (whitespace-only slugs
are the one way an empty member arises). -/
theorem valid_courier_members_lowercase (resp : JVal) :
    (∀ m ∈ fetch_valid_couriers resp, pyLower m = m) ∧
    ((∀ c ∈ couriersOf resp, slugStripOk c = true) →
      ∀ m ∈ fetch_valid_couriers resp, m ≠ "") := by
  constructor
  · intro m hm
    obtain ⟨courier, _, slug, _, _, hme⟩ := mem_fetch_valid_couriers hm
    rw [hme]
    exact pyLower_idem _
  · intro hok m hm
    obtain ⟨courier, hc, slug, hg, ht, hme⟩ := mem_fetch_valid_couriers hm
    have h1 := hok courier hc
    unfold slugStripOk at h1
    rw [hg] at h1
    simp only [ht, Bool.not_true, Bool.false_or, Bool.not_eq_true', beq_eq_false_iff_ne,
      ne_eq] at h1
    intro hem
    rw [hme] at hem
    exact h1 (pyLower_eq_empty hem)

/-- Claim C7 witness: the amended theorem applied to a response carrying the
single slug `"imile"`. -/
theorem valid_courier_members_lowercase_witness :
    pyLower "imile" = "imile" ∧ ("imile" : String) ≠ "" :=
  ⟨(valid_courier_members_lowercase
      (.jobj [("data", .jobj [("couriers", .jarr [.jobj [("slug", .jstr "imile")]])])])).1
      "imile" (by decide),
   (valid_courier_members_lowercase
      (.jobj [("data", .jobj [("couriers", .jarr [.jobj [("slug", .jstr "imile")]])])])).2
      (by decide) "imile" (by decide)⟩

/-! ## Claims C5, C6, C10 -/

/-- Whether the value at key `k`, if present, is itself a dict — the shape
under which CPython's chained `.get` calls on an error payload cannot raise
`AttributeError`. -/
def fieldObjOk (v : JVal) (k : String) : Bool :=
  match dictGet v k with
  | some f => f.isObj
  | none => true

/-- Claim C6: a create failure whose payload does not match the duplicate
signature (`meta.code == 4003` with truthy `data`) is re-raised to the
caller unchanged — no wrapping, no substitution, no `ok=true` result.  The
shape hypothesis keeps the statement on payloads whose `meta`/`data` fields,
when present, are dicts, where CPython's accessor chain is total. -/
theorem non_duplicate_error_propagates
    (api : ApiBehavior) (tn ci code : String) (couriersBody : JVal)
    (suggs : List String) (details : JVal)
    (hc : api.couriersResp = .ok couriersBody)
    (hn : normalize_courier_code ci (fetch_valid_couriers couriersBody) = (some code, suggs))
    (hcode : code ≠ "")
    (hcr : api.createResp code tn = .error details)
    (_hshape : fieldObjOk details "meta" = true ∧ fieldObjOk details "data" = true)
    (hnotdup :
      ¬ (jEqNum
           (dictGetD (if details.isObj then dictGetD details "meta" (.jobj []) else .jobj [])
             "code" .jnull) 4003 = true ∧
         jTruthy (if details.isObj then dictGetD details "data" (.jobj []) else .jobj []) = true)) :
    process_tracking_request api tn ci = .error details := by
  unfold process_tracking_request
  rw [hc]
  dsimp only
  rw [hn]
  dsimp only
  rw [if_neg (by simpa using hcode)]
  simp only [Option.getD_some]
  rw [hcr]
  dsimp only
  rw [if_neg]
  intro hcontra
  rw [Bool.and_eq_true] at hcontra
  exact hnotdup hcontra

def couriersRespW : JVal :=
  .jobj [("data", .jobj [("couriers", .jarr [.jobj [("slug", .jstr "imile")]])])]

def otherDetails : JVal :=
  .jobj [("meta", .jobj [("code", .jnum 500), ("type", .jstr "BadRequest"),
    ("message", .jstr "Tracking number is invalid.")])]

def apiOtherError : ApiBehavior :=
  { couriersResp := .ok couriersRespW
    createResp := fun _ _ => .error otherDetails
    fetchByIdResp := fun _ => .error .jnull }

/-- Claim C6 witness: a create failure with error code 500 propagates
unchanged. -/
theorem non_duplicate_error_propagates_witness :
    process_tracking_request apiOtherError "RR123" "imile" = .error otherDetails :=
  non_duplicate_error_propagates apiOtherError "RR123" "imile" "imile" couriersRespW
    [] otherDetails rfl (by decide) (by decide) rfl (by decide) (by decide)

/-- Claim C5: when create fails with the duplicate signature (`meta.code ==
4003`, non-empty embedded `data` record carrying `id`, `slug`,
`tracking_number`, `tag`) and the re-fetch by that id itself fails, the
request still returns `ok=true` with the courier code, tracking number and
tag taken from the embedded partial record, which is also returned as
`raw`. -/
theorem duplicate_refetch_failure_uses_embedded
    (api : ApiBehavior) (tn ci code : String) (couriersBody : JVal)
    (suggs : List String) (details tid vs vt vg efetch : JVal)
    (hc : api.couriersResp = .ok couriersBody)
    (hn : normalize_courier_code ci (fetch_valid_couriers couriersBody) = (some code, suggs))
    (hcode : code ≠ "")
    (hcr : api.createResp code tn = .error details)
    (hobj : details.isObj = true)
    (hmeta : jEqNum (dictGetD (dictGetD details "meta" (.jobj [])) "code" .jnull) 4003 = true)
    (hdata : jTruthy (dictGetD details "data" (.jobj [])) = true)
    (hid : dictGet (dictGetD details "data" (.jobj [])) "id" = some tid)
    (htid : jTruthy tid = true)
    (hfetch : api.fetchByIdResp tid = .error efetch)
    (hslug : dictGet (dictGetD details "data" (.jobj [])) "slug" = some vs)
    (htnum : dictGet (dictGetD details "data" (.jobj [])) "tracking_number" = some vt)
    (htag : dictGet (dictGetD details "data" (.jobj [])) "tag" = some vg) :
    process_tracking_request api tn ci =
      .ok (.success ⟨vs, vt, vg, dictGetD details "data" (.jobj [])⟩) := by
  unfold process_tracking_request
  rw [hc]
  dsimp only
  rw [hn]
  dsimp only
  rw [if_neg (by simpa using hcode)]
  simp only [Option.getD_some]
  rw [hcr]
  dsimp only
  rw [if_pos hobj]
  rw [if_pos hobj]
  rw [if_pos (by rw [hmeta, hdata]; rfl)]
  have hgid : dictGetD (dictGetD details "data" (.jobj [])) "id" .jnull = tid := by
    rw [dictGetD, hid]; rfl
  rw [hgid, if_pos htid, hfetch]
  dsimp only
  have hgs : dictGetD (dictGetD details "data" (.jobj [])) "slug"
      (dictGetD (dictGetD details "data" (.jobj [])) "slug" (.jstr code)) = vs := by
    rw [dictGetD, hslug]; rfl
  have hgt : dictGetD (dictGetD details "data" (.jobj [])) "tracking_number"
      (dictGetD (dictGetD details "data" (.jobj [])) "tracking_number" (.jstr tn)) = vt := by
    rw [dictGetD, htnum]; rfl
  have hgg : dictGetD (dictGetD details "data" (.jobj [])) "tag"
      (dictGetD (dictGetD details "data" (.jobj [])) "tag" (.jstr "Existing")) = vg := by
    rw [dictGetD, htag]; rfl
  rw [hgs, hgt, hgg]

def dupData : JVal :=
  .jobj [("id", .jstr "trk_1"), ("slug", .jstr "imile"),
    ("tracking_number", .jstr "RR123"), ("tag", .jstr "InTransit")]

def dupDetails : JVal :=
  .jobj [("meta", .jobj [("code", .jnum 4003),
    ("message", .jstr "Tracking already exists.")]), ("data", dupData)]

def apiDupRefetchFails : ApiBehavior :=
  { couriersResp := .ok couriersRespW
    createResp := fun _ _ => .error dupDetails
    fetchByIdResp := fun _ => .error .jnull }

/-- Claim C5 witness: the theorem at a concrete duplicate payload whose
re-fetch fails; the outcome is built from the embedded record. -/
theorem duplicate_refetch_failure_uses_embedded_witness :
    process_tracking_request apiDupRefetchFails "RR123" "imile" =
      .ok (.success ⟨.jstr "imile", .jstr "RR123", .jstr "InTransit", dupData⟩) :=
  duplicate_refetch_failure_uses_embedded apiDupRefetchFails "RR123" "imile" "imile"
    couriersRespW [] dupDetails (.jstr "trk_1") (.jstr "imile") (.jstr "RR123")
    (.jstr "InTransit") .jnull rfl (by decide) (by decide) rfl rfl rfl rfl rfl
    rfl rfl rfl rfl rfl

/-- Claim C10: the duplicate-success path requires BOTH the duplicate code
and a non-empty embedded data record: a create failure whose payload carries
`meta.code == 4003` but whose `data` record is missing or empty is re-raised
as an error, not turned into `ok=true`. -/
theorem duplicate_code_without_data_reraised
    (api : ApiBehavior) (tn ci code : String) (couriersBody : JVal)
    (suggs : List String) (details : JVal)
    (hc : api.couriersResp = .ok couriersBody)
    (hn : normalize_courier_code ci (fetch_valid_couriers couriersBody) = (some code, suggs))
    (hcode : code ≠ "")
    (hcr : api.createResp code tn = .error details)
    (_hmeta : jEqNum
      (dictGetD (if details.isObj then dictGetD details "meta" (.jobj []) else .jobj [])
        "code" .jnull) 4003 = true)
    (hdata : jTruthy
      (if details.isObj then dictGetD details "data" (.jobj []) else .jobj []) = false) :
    process_tracking_request api tn ci = .error details := by
  unfold process_tracking_request
  rw [hc]
  dsimp only
  rw [hn]
  dsimp only
  rw [if_neg (by simpa using hcode)]
  simp only [Option.getD_some]
  rw [hcr]
  dsimp only
  rw [if_neg]
  rw [Bool.and_eq_true]
  intro hcontra
  rw [hdata] at hcontra
  exact absurd hcontra.2 (by simp)

def dupNoDataDetails : JVal :=
  .jobj [("meta", .jobj [("code", .jnum 4003),
    ("message", .jstr "Tracking already exists.")]), ("data", .jobj [])]

def apiDupNoData : ApiBehavior :=
  { couriersResp := .ok couriersRespW
    createResp := fun _ _ => .error dupNoDataDetails
    fetchByIdResp := fun _ => .error .jnull }

/-- Claim C10 witness: a duplicate-coded failure with an empty `data` dict
is re-raised unchanged. -/
theorem duplicate_code_without_data_reraised_witness :
    process_tracking_request apiDupNoData "RR123" "imile" = .error dupNoDataDetails :=
  duplicate_code_without_data_reraised apiDupNoData "RR123" "imile" "imile"
    couriersRespW [] dupNoDataDetails rfl (by decide) (by decide) rfl rfl rfl
